import Mathlib

/-!
Verification development for the navigation and view-synchronization engine
of a terminal feed reader (sources: src/db.rs, src/navigation.rs, src/app.rs,
src/main.rs).

Modelling conventions of the shallow embedding:
- Strings that act only as opaque identifiers (category names, SQLite row
  ids, user-visible message texts) are modelled as numbers.  The category
  name "General" is the distinguished code `generalCat = 0`.  String
  equality in the source becomes numeric equality here.
- `chrono::DateTime<Utc>` instants are modelled as natural numbers; a post's
  optional publish date is `Option Nat`.  Rust's `Option` ordering
  (`None < Some _`) and SQLite's `ORDER BY pub_date DESC` (NULLs sorting as
  smallest, hence last in descending order) agree with the numeric key
  `dateKey` below, which maps `none` to `0` and `some d` to `d + 1`.
- The SQLite database is modelled as in-memory lists of rows; each store
  operation of src/db.rs becomes a pure function on this state.  Feed ids
  are unique (PRIMARY KEY), so the JOIN `posts p JOIN feeds f ON
  p.feed_id = f.id` is modelled by the first-match lookup `feedCategory`.
- Store writes succeed in the pure model; call sites in app.rs/main.rs that
  inspect or discard the store result take an explicit `storeOk : Bool`
  argument standing for success of that one store call.
- Display-only fields of `Post` (title, url, content, feed_title) play no
  role in any verified property and are omitted from the record; posts are
  otherwise embedded field by field.
- UI-only pieces of `App` state that no claim touches (scroll offset, text
  input buffer, feed-management lists) are omitted; all fields that the
  verified operations read or write are present.
-/

/-- Rust `SmartView` enum (src/navigation.rs). -/
inductive SmartView where
  | Fresh
  | Starred
  | ReadLater
  | Archived
deriving DecidableEq

/-- Rust `NavNode` enum (src/navigation.rs); category names are numeric codes. -/
inductive NavNode where
  | SmartView (sv : SmartView)
  | Category (name : Nat)
deriving DecidableEq

/-- Rust `FocusPane` enum (src/navigation.rs). -/
inductive FocusPane where
  | Sidebar
  | Posts
  | Article
deriving DecidableEq

/-- Rust `SidebarSection` enum (src/navigation.rs). -/
inductive SidebarSection where
  | SmartViews
  | Categories
deriving DecidableEq

/-- The category name "General", the distinguished default category. -/
def generalCat : Nat := 0

/-- Rust `Feed` row (src/db.rs); display title omitted. -/
structure Feed where
  id : Int
  category : Nat
deriving DecidableEq

/-- Rust `Post` row (src/db.rs); display-only string fields omitted. -/
structure Post where
  id : Int
  feed_id : Int
  pub_date : Option Nat
  is_read : Bool
  is_bookmarked : Bool
  is_archived : Bool
  is_read_later : Bool
deriving DecidableEq

/-- Rust `PostFilter` (src/db.rs). -/
structure PostFilter where
  only_unread : Bool
  only_bookmarked : Bool
  only_archived : Bool
  only_read_later : Bool
deriving DecidableEq

/-- The SQLite state behind `Database` (src/db.rs): the `feeds`, `posts`
and `categories` tables. -/
structure Database where
  feeds : List Feed
  posts : List Post
  categories : List Nat
deriving DecidableEq

/-- Sort key for an optional publish date: `none` (no date) is the smallest
possible instant, matching both Rust's `Option` ordering and SQLite's
NULL ordering. -/
def dateKey (d : Option Nat) : Nat :=
  match d with
  | none => 0
  | some t => t + 1

/-- Descending-date comparator as a relation: `dateGE a b` means `a`'s date
is at least `b`'s, i.e. `a` may come before `b` in a newest-first list.
This is Rust's `|a, b| b.pub_date.cmp(&a.pub_date)` comparator and SQLite's
`ORDER BY pub_date DESC`. -/
def dateGE (a b : Post) : Prop := dateKey b.pub_date ≤ dateKey a.pub_date

instance : DecidableRel dateGE := fun a b =>
  inferInstanceAs (Decidable (dateKey b.pub_date ≤ dateKey a.pub_date))

instance : IsTotal Post dateGE :=
  ⟨fun a b => (Nat.le_total (dateKey b.pub_date) (dateKey a.pub_date)).imp id id⟩

instance : IsTrans Post dateGE :=
  ⟨fun _ _ _ hab hbc => Nat.le_trans hbc hab⟩

/-- Newest-first ordering of a post list (`ORDER BY pub_date DESC` /
`sort_by(|a, b| b.pub_date.cmp(&a.pub_date))`). -/
def sortByDateDesc (l : List Post) : List Post := l.insertionSort dateGE

/-- First-match lookup of a feed's category by feed id, modelling the SQL
join on the unique feed primary key. -/
def feedCategory : List Feed → Int → Option Nat
  | [], _ => none
  | f :: rest, fid => if f.id = fid then some f.category else feedCategory rest fid

/-- The category a post belongs to, through its owning feed. -/
def postCategory (db : Database) (p : Post) : Option Nat :=
  feedCategory db.feeds p.feed_id

/-- Rust `Database::get_categories` (src/db.rs): distinct names from the
`categories` table united with the feeds' category column, ordered by name. -/
def get_categories (db : Database) : List Nat :=
  ((db.categories ++ db.feeds.map (fun f => f.category)).dedup).insertionSort (· ≤ ·)

/-- Row predicate of the `get_posts` query (src/db.rs): the post joins to an
existing feed and passes every enabled flag condition. -/
def postMatchesFilter (db : Database) (fl : PostFilter) (p : Post) : Bool :=
  (postCategory db p).isSome
    && (!fl.only_unread || !p.is_read)
    && (!fl.only_bookmarked || p.is_bookmarked)
    && (!fl.only_archived || p.is_archived)
    && (!fl.only_read_later || p.is_read_later)

/-- Rust `Database::get_posts` (src/db.rs): filtered posts, newest first,
`LIMIT 100`. -/
def get_posts (db : Database) (fl : PostFilter) : List Post :=
  (sortByDateDesc (db.posts.filter (postMatchesFilter db fl))).take 100

/-- Rust `Database::get_posts_by_category` (src/db.rs). -/
def get_posts_by_category (db : Database) (c : Nat) : List Post :=
  (sortByDateDesc (db.posts.filter (fun p => decide (postCategory db p = some c)))).take 100

/-- Row predicate of the per-category query inside `get_fresh_feed`
(src/db.rs): the post's feed is in category `c` and the post is unread. -/
def inCatUnread (db : Database) (c : Nat) (p : Post) : Bool :=
  decide (postCategory db p = some c) && !p.is_read

/-- The unread posts of one category, in table order. -/
def unreadInCat (db : Database) (c : Nat) : List Post :=
  db.posts.filter (inCatUnread db c)

/-- One category's contribution to the fresh digest: its newest
`K` unread posts (`ORDER BY pub_date DESC LIMIT K`). -/
def selCat (db : Database) (K : Nat) (c : Nat) : List Post :=
  (sortByDateDesc (unreadInCat db c)).take K

/-- Rust `Database::get_fresh_feed` (src/db.rs): per known category take the
newest `K` unread posts, concatenate, then re-sort globally newest first. -/
def get_fresh_feed (db : Database) (K : Nat) : List Post :=
  sortByDateDesc ((get_categories db).flatMap (selCat db K))

/-- Rust `Database::mark_as_read` (src/db.rs). -/
def Database.mark_as_read (db : Database) (pid : Int) : Database :=
  { db with posts := db.posts.map (fun p => if p.id = pid then { p with is_read := true } else p) }

/-- Rust `Database::mark_as_unread` (src/db.rs). -/
def Database.mark_as_unread (db : Database) (pid : Int) : Database :=
  { db with posts := db.posts.map (fun p => if p.id = pid then { p with is_read := false } else p) }

/-- Rust `Database::toggle_bookmark` (src/db.rs): SQL `is_bookmarked = NOT is_bookmarked`. -/
def Database.toggle_bookmark (db : Database) (pid : Int) : Database :=
  { db with posts := db.posts.map (fun p =>
      if p.id = pid then { p with is_bookmarked := !p.is_bookmarked } else p) }

/-- Rust `Database::mark_as_archived` (src/db.rs): SQL `is_archived = NOT is_archived`. -/
def Database.mark_as_archived (db : Database) (pid : Int) : Database :=
  { db with posts := db.posts.map (fun p =>
      if p.id = pid then { p with is_archived := !p.is_archived } else p) }

/-- Rust `Database::mark_as_read_later` (src/db.rs): SQL `is_read_later = NOT is_read_later`. -/
def Database.mark_as_read_later (db : Database) (pid : Int) : Database :=
  { db with posts := db.posts.map (fun p =>
      if p.id = pid then { p with is_read_later := !p.is_read_later } else p) }

/-- Rust `Database::delete_post` (src/db.rs). -/
def Database.delete_post (db : Database) (pid : Int) : Database :=
  { db with posts := db.posts.filter (fun p => decide (p.id ≠ pid)) }

/-- Rust `Database::delete_feed` (src/db.rs): deletes the feed's posts, then
the feed. -/
def Database.delete_feed (db : Database) (fid : Int) : Database :=
  { db with posts := db.posts.filter (fun p => decide (p.feed_id ≠ fid)),
            feeds := db.feeds.filter (fun f => decide (f.id ≠ fid)) }

/-- Rust `Database::delete_category` (src/db.rs): reassigns the category's
feeds to "General", then removes the name from the `categories` table. -/
def Database.delete_category (db : Database) (c : Nat) : Database :=
  { db with feeds := db.feeds.map (fun f =>
      if f.category = c then { f with category := generalCat } else f),
            categories := db.categories.filter (fun n => decide (n ≠ c)) }

/-- SQL `SELECT COUNT(*) FROM posts WHERE is_read = 0` (src/navigation.rs
`update_counts`; note: no join, orphan posts count too). -/
def unreadCountAll (db : Database) : Nat :=
  (db.posts.filter (fun p => !p.is_read)).length

/-- SQL `SELECT COUNT(*) FROM posts WHERE is_bookmarked = 1`. -/
def starredCountAll (db : Database) : Nat :=
  (db.posts.filter (fun p => p.is_bookmarked)).length

/-- SQL `SELECT COUNT(*) FROM posts WHERE is_read_later = 1`. -/
def readLaterCountAll (db : Database) : Nat :=
  (db.posts.filter (fun p => p.is_read_later)).length

/-- SQL `SELECT COUNT(*) FROM posts WHERE is_archived = 1`. -/
def archivedCountAll (db : Database) : Nat :=
  (db.posts.filter (fun p => p.is_archived)).length

/-- SQL count of the posts joined to feeds of category `c`. -/
def categoryCountAll (db : Database) (c : Nat) : Nat :=
  (db.posts.filter (fun p => decide (postCategory db p = some c))).length

/-- Rust `SidebarState` (src/navigation.rs).  The Rust field `section` is
named `sect` here (keyword clash); `counts` and `last_fetched` are the two
`HashMap`s, modelled as insert-ordered association lists. -/
structure SidebarState where
  smart_views : List SmartView
  categories : List Nat
  sect : SidebarSection
  smart_view_index : Nat
  category_index : Nat
  counts : List (NavNode × Nat)
  last_fetched : List (NavNode × Nat)
deriving DecidableEq

/-- Association-list lookup, modelling `HashMap::get`. -/
def mapLookup : List (NavNode × Nat) → NavNode → Option Nat
  | [], _ => none
  | (k, v) :: rest, k0 => if k = k0 then some v else mapLookup rest k0

/-- Association-list insert-or-replace, modelling `HashMap::insert`. -/
def mapInsert : List (NavNode × Nat) → NavNode → Nat → List (NavNode × Nat)
  | [], k0, v0 => [(k0, v0)]
  | (k, v) :: rest, k0, v0 =>
      if k = k0 then (k0, v0) :: rest else (k, v) :: mapInsert rest k0 v0

/-- Rust `SidebarState::new` (src/navigation.rs). -/
def SidebarState.new : SidebarState :=
  { smart_views := [SmartView.Fresh, SmartView.Starred, SmartView.ReadLater, SmartView.Archived]
    categories := []
    sect := SidebarSection.SmartViews
    smart_view_index := 0
    category_index := 0
    counts := []
    last_fetched := [] }

/-- Rust `SidebarState::load_categories` (src/navigation.rs): reload names
from the store; if the list is empty, synthesize `["General"]`. -/
def SidebarState.load_categories (s : SidebarState) (db : Database) : SidebarState :=
  let cats := get_categories db
  { s with categories := if cats.isEmpty then [generalCat] else cats }

/-- Rust `SidebarState::update_counts` (src/navigation.rs): insert the four
smart-view counts, then one count per current category. -/
def SidebarState.update_counts (s : SidebarState) (db : Database) : SidebarState :=
  let m := mapInsert s.counts (NavNode.SmartView SmartView.Fresh) (unreadCountAll db)
  let m := mapInsert m (NavNode.SmartView SmartView.Starred) (starredCountAll db)
  let m := mapInsert m (NavNode.SmartView SmartView.ReadLater) (readLaterCountAll db)
  let m := mapInsert m (NavNode.SmartView SmartView.Archived) (archivedCountAll db)
  let m := s.categories.foldl (fun acc c => mapInsert acc (NavNode.Category c) (categoryCountAll db c)) m
  { s with counts := m }

/-- Rust `SidebarState::selected_node` (src/navigation.rs).  The smart-view
arm indexes `smart_views[smart_view_index]`, which panics when out of
bounds: a panic is modelled as `none`.  The category arm is total: a
missing category index falls back to the Fresh smart view. -/
def SidebarState.selected_node (s : SidebarState) : Option NavNode :=
  match s.sect with
  | SidebarSection.SmartViews =>
      (s.smart_views.get? s.smart_view_index).map NavNode.SmartView
  | SidebarSection.Categories =>
      match s.categories.get? s.category_index with
      | some c => some (NavNode.Category c)
      | none => some (NavNode.SmartView SmartView.Fresh)

/-- Rust `SidebarState::next` (src/navigation.rs). -/
def SidebarState.next (s : SidebarState) : SidebarState :=
  match s.sect with
  | SidebarSection.SmartViews =>
      if s.smart_view_index < s.smart_views.length - 1 then
        { s with smart_view_index := s.smart_view_index + 1 }
      else
        { s with sect := SidebarSection.Categories, category_index := 0 }
  | SidebarSection.Categories =>
      if !s.categories.isEmpty && s.category_index < s.categories.length - 1 then
        { s with category_index := s.category_index + 1 }
      else s

/-- Rust `SidebarState::previous` (src/navigation.rs). -/
def SidebarState.previous (s : SidebarState) : SidebarState :=
  match s.sect with
  | SidebarSection.SmartViews =>
      if 0 < s.smart_view_index then
        { s with smart_view_index := s.smart_view_index - 1 }
      else s
  | SidebarSection.Categories =>
      if 0 < s.category_index then
        { s with category_index := s.category_index - 1 }
      else
        { s with sect := SidebarSection.SmartViews,
                 smart_view_index := s.smart_views.length - 1 }

/-- Rust `SidebarState::mark_fetched` (src/navigation.rs), with the current
instant passed in explicitly. -/
def SidebarState.mark_fetched (s : SidebarState) (node : NavNode) (now : Nat) : SidebarState :=
  { s with last_fetched := mapInsert s.last_fetched node now }

/-- Rust `ConfirmAction` (src/app.rs). -/
inductive ConfirmAction where
  | DeletePost (id : Int)
  | DeleteFeed (id : Int)
  | DeleteCategory (name : Nat)
deriving DecidableEq

/-- Rust `InputMode` (src/app.rs); payloads that no claim inspects are
reduced to the numeric-code convention. -/
inductive InputMode where
  | Normal
  | Welcome
  | AddingFeed
  | AddingCategory
  | SelectingCategory
  | Confirming (action : ConfirmAction)
  | Help
  | EditingCategoryFeeds (cat : Nat)
deriving DecidableEq

/-- Numeric codes for the user-visible message strings that the verified
operations set. -/
def msgAddedStarred : Nat := 1
def msgRemovedStarred : Nat := 2
def msgArchivedSet : Nat := 3
def msgArchivedCleared : Nat := 4
def msgReadLaterSet : Nat := 5
def msgReadLaterCleared : Nat := 6
def msgMarkedRead : Nat := 7
def msgMarkedUnread : Nat := 8
def msgFeedsUpdated : Nat := 9
def msgPostDeleted : Nat := 10
def msgFeedDeleted : Nat := 11
def msgCategoryDeleted : Nat := 12
def msgCannotDeleteGeneral : Nat := 13

/-- Rust `App` (src/app.rs), restricted to the state the verified
operations read or write. -/
structure App where
  posts : List Post
  focus : FocusPane
  sidebar : SidebarState
  active_node : NavNode
  selected_index : Nat
  message : Option Nat
  is_loading : Bool
  input_mode : InputMode
  show_read : Bool
deriving DecidableEq

/-- The index clamp used after every list-shrinking mutation in src/app.rs:
`if selected_index >= posts.len() && !posts.is_empty() { selected_index = posts.len() - 1 }`. -/
def clampIndex (a : App) : App :=
  if a.posts.length ≤ a.selected_index && !a.posts.isEmpty then
    { a with selected_index := a.posts.length - 1 }
  else a

/-- Rust `App::reload_posts_for_active_node` (src/app.rs): materialize the
active node's list, then clamp the selection index. -/
def reload_posts_for_active_node (db : Database) (a : App) : App :=
  let posts :=
    match a.active_node with
    | NavNode.SmartView SmartView.Fresh =>
        if a.show_read then
          get_posts db ⟨false, false, false, false⟩
        else
          get_fresh_feed db 15
    | NavNode.SmartView SmartView.Starred => get_posts db ⟨false, true, false, false⟩
    | NavNode.SmartView SmartView.ReadLater => get_posts db ⟨false, false, false, true⟩
    | NavNode.SmartView SmartView.Archived => get_posts db ⟨false, false, true, false⟩
    | NavNode.Category c => get_posts_by_category db c
  clampIndex { a with posts := posts }

/-- Rust `App::refresh_sidebar` (src/app.rs). -/
def refresh_sidebar (db : Database) (a : App) : App :=
  { a with sidebar := (a.sidebar.load_categories db).update_counts db }

/-- Rust `App::select_sidebar_item` (src/app.rs): adopt the sidebar's
selected node, reload, then reset the selection to 0 and focus the posts
pane.  `none` stands for the panic of an out-of-range smart-view index. -/
def select_sidebar_item (db : Database) (a : App) : Option App :=
  (a.sidebar.selected_node).map (fun n =>
    let a1 := reload_posts_for_active_node db { a with active_node := n }
    { a1 with selected_index := 0, focus := FocusPane.Posts })

/-- Rust `App::toggle_bookmark` (src/app.rs).  The store call's result is
discarded by the source (`let _ = ...`); `storeOk` tells whether that store
write succeeded. -/
def toggle_bookmark (storeOk : Bool) (db : Database) (a : App) : App × Database :=
  match a.posts.get? a.selected_index with
  | none => (a, db)
  | some post =>
    let db1 := if storeOk then db.toggle_bookmark post.id else db
    let newFlag := !post.is_bookmarked
    let a1 := { a with
      posts := a.posts.set a.selected_index { post with is_bookmarked := newFlag },
      message := some (if newFlag then msgAddedStarred else msgRemovedStarred) }
    let a2 :=
      if !newFlag && decide (a1.active_node = NavNode.SmartView SmartView.Starred) then
        clampIndex { a1 with posts := a1.posts.eraseIdx a1.selected_index }
      else a1
    (refresh_sidebar db1 a2, db1)

/-- Rust `App::toggle_archived` (src/app.rs). -/
def toggle_archived (storeOk : Bool) (db : Database) (a : App) : App × Database :=
  match a.posts.get? a.selected_index with
  | none => (a, db)
  | some post =>
    let db1 := if storeOk then db.mark_as_archived post.id else db
    let newFlag := !post.is_archived
    let a1 := { a with
      posts := a.posts.set a.selected_index { post with is_archived := newFlag },
      message := some (if newFlag then msgArchivedSet else msgArchivedCleared) }
    let a2 :=
      if !newFlag && decide (a1.active_node = NavNode.SmartView SmartView.Archived) then
        clampIndex { a1 with posts := a1.posts.eraseIdx a1.selected_index }
      else a1
    (refresh_sidebar db1 a2, db1)

/-- Rust `App::toggle_read_later` (src/app.rs). -/
def toggle_read_later (storeOk : Bool) (db : Database) (a : App) : App × Database :=
  match a.posts.get? a.selected_index with
  | none => (a, db)
  | some post =>
    let db1 := if storeOk then db.mark_as_read_later post.id else db
    let newFlag := !post.is_read_later
    let a1 := { a with
      posts := a.posts.set a.selected_index { post with is_read_later := newFlag },
      message := some (if newFlag then msgReadLaterSet else msgReadLaterCleared) }
    let a2 :=
      if !newFlag && decide (a1.active_node = NavNode.SmartView SmartView.ReadLater) then
        clampIndex { a1 with posts := a1.posts.eraseIdx a1.selected_index }
      else a1
    (refresh_sidebar db1 a2, db1)

/-- Rust `App::toggle_read` (src/app.rs). -/
def toggle_read (storeOk : Bool) (db : Database) (a : App) : App × Database :=
  match a.posts.get? a.selected_index with
  | none => (a, db)
  | some post =>
    let newState := !post.is_read
    let db1 :=
      if storeOk then
        if newState then db.mark_as_read post.id else db.mark_as_unread post.id
      else db
    let a1 := { a with
      posts := a.posts.set a.selected_index { post with is_read := newState },
      message := some (if newState then msgMarkedRead else msgMarkedUnread) }
    let a2 :=
      if !a1.show_read && newState
          && decide (a1.active_node = NavNode.SmartView SmartView.Fresh) then
        clampIndex { a1 with posts := a1.posts.eraseIdx a1.selected_index }
      else a1
    (refresh_sidebar db1 a2, db1)

/-- Rust `App::open_article` (src/app.rs): mark the selected post read in
the store and in memory, focus the article pane, and (in Fresh unread-only
mode) refresh the sidebar; the list itself is not touched. -/
def open_article (db : Database) (a : App) : App × Database :=
  match a.posts.get? a.selected_index with
  | none => (a, db)
  | some post =>
    let db1 := db.mark_as_read post.id
    let a1 := { a with
      posts := a.posts.set a.selected_index { post with is_read := true },
      focus := FocusPane.Article }
    let a2 :=
      if !a1.show_read && decide (a1.active_node = NavNode.SmartView SmartView.Fresh) then
        refresh_sidebar db1 a1
      else a1
    (a2, db1)

/-- Rust `Iterator::position` on a post list, searching by post id. -/
def idxOfId : List Post → Int → Option Nat
  | [], _ => none
  | p :: rest, i => if p.id = i then some 0 else (idxOfId rest i).map (fun j => j + 1)

/-- Rust `App::remove_read_posts` (src/app.rs): drop every read post; the
selection follows the previously selected post's id if a post with that id
survives, else falls back to 0; finally clamp. -/
def remove_read_posts (a : App) : App :=
  let old_id := (a.posts.get? a.selected_index).map (fun p => p.id)
  let posts := a.posts.filter (fun p => !p.is_read)
  let idx :=
    match old_id with
    | some i => (idxOfId posts i).getD 0
    | none => a.selected_index
  clampIndex { a with posts := posts, selected_index := idx }

/-- Rust `App::close_article` (src/app.rs): back to the posts pane; in
Fresh unread-only mode the read posts are removed now. -/
def close_article (a : App) : App :=
  let a1 := { a with focus := FocusPane.Posts }
  if !a1.show_read && decide (a1.active_node = NavNode.SmartView SmartView.Fresh) then
    remove_read_posts a1
  else a1

/-- The completion-drain arm of the interactive loop (src/main.rs, the
`rx.recv()` arm of the select): mark the node fetched, re-materialize only
when it is still the active node, always recompute the sidebar. -/
def drain_completion (db : Database) (now : Nat) (fetched : NavNode) (a : App) : App :=
  let a1 := { a with sidebar := a.sidebar.mark_fetched fetched now }
  let a2 := if a1.active_node = fetched then reload_posts_for_active_node db a1 else a1
  let a3 := refresh_sidebar db a2
  { a3 with is_loading := false, message := some msgFeedsUpdated }

/-- Key presses relevant to `handle_confirm_input` (src/main.rs): the
yes keys, the no/escape keys, anything else. -/
inductive ConfirmKey where
  | yes
  | no
  | other
deriving DecidableEq

/-- Rust `handle_confirm_input` (src/main.rs).  Each store delete is
checked with `is_ok()`; `storeOk` is that result. -/
def handle_confirm_input (storeOk : Bool) (db : Database) (a : App) (key : ConfirmKey)
    (action : ConfirmAction) : App × Database :=
  match key with
  | ConfirmKey.yes =>
    let (a1, db1) :=
      match action with
      | ConfirmAction.DeletePost pid =>
        if storeOk then
          let db1 := db.delete_post pid
          let a1 := clampIndex { a with posts := a.posts.filter (fun p => decide (p.id ≠ pid)) }
          ({ refresh_sidebar db1 a1 with message := some msgPostDeleted }, db1)
        else (a, db)
      | ConfirmAction.DeleteFeed fid =>
        if storeOk then
          let db1 := db.delete_feed fid
          let a1 := reload_posts_for_active_node db1 (refresh_sidebar db1 a)
          ({ a1 with message := some msgFeedDeleted }, db1)
        else (a, db)
      | ConfirmAction.DeleteCategory c =>
        if storeOk then
          let db1 := db.delete_category c
          let a1 := reload_posts_for_active_node db1 (refresh_sidebar db1 a)
          ({ a1 with message := some msgCategoryDeleted }, db1)
        else (a, db)
    ({ a1 with input_mode := InputMode.Normal }, db1)
  | ConfirmKey.no => ({ a with input_mode := InputMode.Normal, message := none }, db)
  | ConfirmKey.other => (a, db)

/-- The `'d'` arm of `handle_sidebar_input` (src/main.rs): request deletion
of the sidebar-selected category; "General" is rejected with a notice and
never enters the confirming mode. -/
def handle_sidebar_delete (a : App) : App :=
  match a.sidebar.sect with
  | SidebarSection.Categories =>
    match a.sidebar.categories.get? a.sidebar.category_index with
    | some c =>
      if c = generalCat then
        { a with message := some msgCannotDeleteGeneral }
      else
        { a with input_mode := InputMode.Confirming (ConfirmAction.DeleteCategory c) }
    | none => a
  | _ => a

/-- Number of posts of category `c` in a materialized list. -/
def countInCat (db : Database) (c : Nat) (l : List Post) : Nat :=
  l.countP (fun p => decide (postCategory db p = some c))

/-- Number of unread posts in category `c` held by the store. -/
def unreadCount (db : Database) (c : Nat) : Nat :=
  (unreadInCat db c).length

/-- An empty store. -/
def dbEmpty : Database := ⟨[], [], []⟩

/-- A baseline application state: Fresh view, unread-only, nothing loaded. -/
def appBase : App :=
  { posts := []
    focus := FocusPane.Posts
    sidebar := SidebarState.new
    active_node := NavNode.SmartView SmartView.Fresh
    selected_index := 0
    message := none
    is_loading := false
    input_mode := InputMode.Normal
    show_read := false }

/-- A store holding one bookmarked post in one "General" feed. -/
def dbOnePost : Database := ⟨[⟨1, 0⟩], [⟨1, 1, some 5, false, true, false, false⟩], []⟩

/-- Viewing Starred with a stale selection index 3. -/
def aStaleIdx : App := { appBase with active_node := NavNode.SmartView SmartView.Starred,
                                      selected_index := 3 }

/-- Viewing Starred with selection index 0. -/
def aStarred0 : App := { appBase with active_node := NavNode.SmartView SmartView.Starred }

/-- A post with every flag clear. -/
def pUnflagged : Post := ⟨1, 1, some 5, false, false, false, false⟩

/-- A store holding the one unflagged post. -/
def dbUnflagged : Database := ⟨[⟨1, 0⟩], [pUnflagged], []⟩

/-- Fresh view with the unflagged post loaded and selected. -/
def aUnflagged : App := { appBase with posts := [pUnflagged] }

/-- Three bookmarked posts. -/
def pBook1 : Post := ⟨1, 1, some 30, false, true, false, false⟩
def pBook2 : Post := ⟨2, 1, some 20, false, true, false, false⟩
def pBook3 : Post := ⟨3, 1, some 10, false, true, false, false⟩

/-- A store holding the three bookmarked posts. -/
def dbBook : Database := ⟨[⟨1, 0⟩], [pBook1, pBook2, pBook3], []⟩

/-- Viewing Starred with the three bookmarked posts, the second selected. -/
def aBook : App := { appBase with posts := [pBook1, pBook2, pBook3],
                                  active_node := NavNode.SmartView SmartView.Starred,
                                  selected_index := 1 }

/-- Sidebar cursor on the last smart view with no categories. -/
def sLastSmart : SidebarState := { SidebarState.new with smart_view_index := 3 }

/-- Sidebar cursor on the last smart view with two categories. -/
def sLastSmartCats : SidebarState :=
  { SidebarState.new with smart_view_index := 3, categories := [0, 1] }

/-- One read and one unread post, for the article open/close scenario. -/
def pRead1 : Post := ⟨1, 1, some 30, true, false, false, false⟩
def pUnread2 : Post := ⟨2, 1, some 20, false, false, false, false⟩

/-- A store holding the read and the unread post. -/
def dbReadMix : Database := ⟨[⟨1, 0⟩], [pRead1, pUnread2], []⟩

/-- Fresh view (unread-only) with the mixed list, the unread post selected. -/
def aReadMix : App := { appBase with posts := [pRead1, pUnread2], selected_index := 1 }

/-- A store with four feeds in category 1 ("Tech") and both category names
recorded. -/
def dbTech : Database := ⟨[⟨1, 1⟩, ⟨2, 1⟩, ⟨3, 1⟩, ⟨4, 1⟩], [], [0, 1]⟩

/-- Sidebar cursor on the "General" category entry. -/
def aOnGeneral : App :=
  { appBase with sidebar := { SidebarState.new with sect := SidebarSection.Categories,
                                                    categories := [0, 1],
                                                    category_index := 0 } }

/-- Sidebar cursor on the "Tech" category entry. -/
def aOnTech : App :=
  { appBase with sidebar := { SidebarState.new with sect := SidebarSection.Categories,
                                                    categories := [0, 1],
                                                    category_index := 1 } }

/-- Sidebar in the category section with a category index past the end of
the (empty) category list. -/
def sPastEnd : SidebarState :=
  { SidebarState.new with sect := SidebarSection.Categories, category_index := 5 }

/-- Fifty unread posts in category 1, newest first. -/
def postsCatA : List Post :=
  (List.range 50).map (fun i => ⟨Int.ofNat (100 + i), 1, some (1000 - i), false, false, false, false⟩)

/-- Two unread posts in category 2, newer than all of category 1. -/
def postsCatB : List Post :=
  [⟨200, 2, some 2001, false, false, false, false⟩, ⟨201, 2, some 2000, false, false, false, false⟩]

/-- The fairness scenario store: category 1 has 50 unread posts, category 2
has 2. -/
def dbFair : Database := ⟨[⟨1, 1⟩, ⟨2, 2⟩], postsCatA ++ postsCatB, []⟩

lemma clampIndex_posts (a : App) : (clampIndex a).posts = a.posts := by
  unfold clampIndex
  split <;> rfl

lemma clampIndex_lt (a : App) (h : a.posts ≠ []) :
    (clampIndex a).selected_index < a.posts.length := by
  unfold clampIndex
  have hlen : 0 < a.posts.length := List.length_pos.mpr h
  have hne : a.posts.isEmpty = false := by simpa [List.isEmpty_iff] using h
  split
  · exact Nat.sub_lt hlen Nat.one_pos
  · rename_i hcond
    simp only [hne, Bool.not_false, Bool.and_true, decide_eq_true_eq, Nat.not_le] at hcond
    exact hcond

lemma clampIndex_of_empty (a : App) (h : a.posts = []) : clampIndex a = a := by
  unfold clampIndex
  split
  · rename_i hcond
    rw [Bool.and_eq_true] at hcond
    exfalso
    have := hcond.2
    simp [h] at this
  · rfl

lemma clampIndex_of_lt (a : App) (h : a.selected_index < a.posts.length) :
    clampIndex a = a := by
  unfold clampIndex
  split
  · rename_i hcond
    rw [Bool.and_eq_true, decide_eq_true_eq] at hcond
    exact absurd hcond.1 (Nat.not_le.mpr h)
  · rfl

lemma clampIndex_sidebar (a : App) : (clampIndex a).sidebar = a.sidebar := by
  unfold clampIndex
  split <;> rfl

lemma clampIndex_message (a : App) : (clampIndex a).message = a.message := by
  unfold clampIndex
  split <;> rfl

lemma mapLookup_insert_self (m : List (NavNode × Nat)) (k : NavNode) (v : Nat) :
    mapLookup (mapInsert m k v) k = some v := by
  induction m with
  | nil => simp [mapInsert, mapLookup]
  | cons kv rest ih =>
    obtain ⟨k1, v1⟩ := kv
    by_cases h : k1 = k
    · simp [mapInsert, mapLookup, h]
    · simp [mapInsert, mapLookup, h, ih]

lemma mapLookup_insert_other (m : List (NavNode × Nat)) (k k0 : NavNode) (v : Nat)
    (h : k ≠ k0) : mapLookup (mapInsert m k v) k0 = mapLookup m k0 := by
  induction m with
  | nil => simp [mapInsert, mapLookup, h]
  | cons kv rest ih =>
    obtain ⟨k1, v1⟩ := kv
    by_cases h1 : k1 = k
    · subst h1
      simp [mapInsert, mapLookup, h]
    · simp only [mapInsert, if_neg h1]
      by_cases h2 : k1 = k0
      · simp [mapLookup, h2]
      · simp [mapLookup, h2, ih]

lemma sortByDateDesc_perm (l : List Post) : List.Perm (sortByDateDesc l) l :=
  List.perm_insertionSort dateGE l

lemma sortByDateDesc_sorted (l : List Post) : List.Sorted dateGE (sortByDateDesc l) :=
  List.sorted_insertionSort dateGE l

lemma sortByDateDesc_length (l : List Post) : (sortByDateDesc l).length = l.length :=
  (sortByDateDesc_perm l).length_eq

lemma sortByDateDesc_mem {l : List Post} {p : Post} : p ∈ sortByDateDesc l ↔ p ∈ l :=
  (sortByDateDesc_perm l).mem_iff

lemma get_categories_nodup (db : Database) : (get_categories db).Nodup := by
  unfold get_categories
  exact (List.perm_insertionSort _ _).nodup_iff.mpr (List.nodup_dedup _)

lemma mapLookup_foldl_smart (db : Database) (l : List Nat) (m : List (NavNode × Nat))
    (sv : SmartView) :
    mapLookup (l.foldl (fun acc c => mapInsert acc (NavNode.Category c) (categoryCountAll db c)) m)
        (NavNode.SmartView sv) = mapLookup m (NavNode.SmartView sv) := by
  induction l generalizing m with
  | nil => rfl
  | cons x xs ih =>
    simp only [List.foldl_cons]
    rw [ih, mapLookup_insert_other]
    intro h
    exact NavNode.noConfusion h

lemma mapLookup_foldl_cat_notmem (db : Database) (l : List Nat) (m : List (NavNode × Nat))
    (c : Nat) (hc : c ∉ l) :
    mapLookup (l.foldl (fun acc x => mapInsert acc (NavNode.Category x) (categoryCountAll db x)) m)
        (NavNode.Category c) = mapLookup m (NavNode.Category c) := by
  induction l generalizing m with
  | nil => rfl
  | cons x xs ih =>
    simp only [List.foldl_cons]
    have hx : x ≠ c := fun h => hc (h ▸ List.mem_cons_self x xs)
    have hxs : c ∉ xs := fun h => hc (List.mem_cons_of_mem x h)
    rw [ih _ hxs, mapLookup_insert_other]
    intro h
    exact hx (NavNode.Category.injEq x c ▸ congrArg (fun n => n) h ▸ rfl)

lemma mapLookup_foldl_cat_mem (db : Database) (l : List Nat) (m : List (NavNode × Nat))
    (c : Nat) (hc : c ∈ l) :
    mapLookup (l.foldl (fun acc x => mapInsert acc (NavNode.Category x) (categoryCountAll db x)) m)
        (NavNode.Category c) = some (categoryCountAll db c) := by
  induction l generalizing m with
  | nil => exact absurd hc (List.not_mem_nil c)
  | cons x xs ih =>
    simp only [List.foldl_cons]
    by_cases hmem : c ∈ xs
    · exact ih _ hmem
    · have hx : x = c := by
        rcases List.mem_cons.mp hc with h | h
        · exact h.symm
        · exact absurd h hmem
      subst hx
      rw [mapLookup_foldl_cat_notmem db xs _ x hmem, mapLookup_insert_self]

lemma update_counts_lookup_smart (s : SidebarState) (db : Database) :
    mapLookup ((s.update_counts db).counts) (NavNode.SmartView SmartView.Fresh)
        = some (unreadCountAll db) ∧
    mapLookup ((s.update_counts db).counts) (NavNode.SmartView SmartView.Starred)
        = some (starredCountAll db) ∧
    mapLookup ((s.update_counts db).counts) (NavNode.SmartView SmartView.ReadLater)
        = some (readLaterCountAll db) ∧
    mapLookup ((s.update_counts db).counts) (NavNode.SmartView SmartView.Archived)
        = some (archivedCountAll db) := by
  unfold SidebarState.update_counts
  simp only [mapLookup_foldl_smart]
  refine ⟨?_, ?_, ?_, ?_⟩ <;>
    simp [mapLookup_insert_self, mapLookup_insert_other]

lemma update_counts_lookup_cat (s : SidebarState) (db : Database) (c : Nat)
    (hc : c ∈ s.categories) :
    mapLookup ((s.update_counts db).counts) (NavNode.Category c)
        = some (categoryCountAll db c) := by
  unfold SidebarState.update_counts
  exact mapLookup_foldl_cat_mem db s.categories _ c hc

lemma update_counts_categories (s : SidebarState) (db : Database) :
    (s.update_counts db).categories = s.categories := rfl

lemma update_counts_last_fetched (s : SidebarState) (db : Database) :
    (s.update_counts db).last_fetched = s.last_fetched := rfl

lemma load_categories_last_fetched (s : SidebarState) (db : Database) :
    (s.load_categories db).last_fetched = s.last_fetched := rfl

lemma refresh_sidebar_posts (db : Database) (a : App) :
    (refresh_sidebar db a).posts = a.posts := rfl

lemma refresh_sidebar_selected_index (db : Database) (a : App) :
    (refresh_sidebar db a).selected_index = a.selected_index := rfl

lemma reload_posts_posts (db : Database) (a : App) :
    (reload_posts_for_active_node db a).posts =
      match a.active_node with
      | NavNode.SmartView SmartView.Fresh =>
          if a.show_read then get_posts db ⟨false, false, false, false⟩
          else get_fresh_feed db 15
      | NavNode.SmartView SmartView.Starred => get_posts db ⟨false, true, false, false⟩
      | NavNode.SmartView SmartView.ReadLater => get_posts db ⟨false, false, false, true⟩
      | NavNode.SmartView SmartView.Archived => get_posts db ⟨false, false, true, false⟩
      | NavNode.Category c => get_posts_by_category db c := by
  unfold reload_posts_for_active_node
  rw [clampIndex_posts]

/-- Claim C10: `selected_node` is total at the public interface: in the
category section, a category index outside the current category list
returns the Fresh smart view as a defined fallback, and the category arm
never fails (never indexes out of bounds). -/
theorem claim_C10 (s : SidebarState) (hs : s.sect = SidebarSection.Categories) :
    (∃ n, s.selected_node = some n) ∧
    (s.categories.length ≤ s.category_index →
      s.selected_node = some (NavNode.SmartView SmartView.Fresh)) := by
  constructor
  · simp only [SidebarState.selected_node, hs]
    cases h : s.categories.get? s.category_index <;> simp
  · intro hlen
    simp only [SidebarState.selected_node, hs, List.get?_eq_none.mpr hlen]

/-- Witness for C10 at a concrete out-of-range category cursor. -/
theorem claim_C10_witness :
    sPastEnd.selected_node = some (NavNode.SmartView SmartView.Fresh) :=
  (claim_C10 sPastEnd rfl).2 (by decide)

/-- Counterexample to claim C6 as stated: from the last smart view with an
empty category list, `next` is not a no-op and the cursor does not stay in
the smart-view section; it switches to the (empty) category section. -/
theorem claim_C6_counterexample :
    (SidebarState.next sLastSmart).sect = SidebarSection.Categories ∧
    SidebarState.next sLastSmart ≠ sLastSmart := by decide

/-- Claim C6 (amended): from the last smart view, `next` always switches
the section to categories and lands on category index 0 — when the
category list is non-empty, as the claim states, but also when it is
empty (the no-op half of the claim fails on the code). -/
theorem claim_C6_amended (s : SidebarState)
    (hs : s.sect = SidebarSection.SmartViews)
    (hlast : ¬ s.smart_view_index < s.smart_views.length - 1) :
    SidebarState.next s =
      { s with sect := SidebarSection.Categories, category_index := 0 } := by
  simp only [SidebarState.next, hs, if_neg hlast]

/-- Witness for the amended C6 with a non-empty category list. -/
theorem claim_C6_witness :
    SidebarState.next sLastSmartCats =
      { sLastSmartCats with sect := SidebarSection.Categories, category_index := 0 } :=
  claim_C6_amended sLastSmartCats rfl (by decide)

/-- Counterexample to claim C3 as stated: materializing an empty list with
a stale selection index 3 leaves the index at 3; the clamp does not reset
it to 0, so the claimed invariant fails. -/
theorem claim_C3_counterexample :
    (reload_posts_for_active_node dbEmpty aStaleIdx).posts = [] ∧
    (reload_posts_for_active_node dbEmpty aStaleIdx).selected_index = 3 ∧
    ¬((reload_posts_for_active_node dbEmpty aStaleIdx).selected_index <
        (reload_posts_for_active_node dbEmpty aStaleIdx).posts.length ∨
      ((reload_posts_for_active_node dbEmpty aStaleIdx).posts = [] ∧
        (reload_posts_for_active_node dbEmpty aStaleIdx).selected_index = 0)) := by decide

/-- Claim C3 (amended): after a materialization call, either the new list
is non-empty and the selection index is strictly within its bounds, or the
new list is empty and the selection index is left at its prior value (it
is not reset to 0); selecting a sidebar item additionally resets the
selection index to 0 afterwards. -/
theorem claim_C3_amended (db : Database) (a : App) :
    ((reload_posts_for_active_node db a).posts ≠ [] →
        (reload_posts_for_active_node db a).selected_index <
          (reload_posts_for_active_node db a).posts.length) ∧
    ((reload_posts_for_active_node db a).posts = [] →
        (reload_posts_for_active_node db a).selected_index = a.selected_index) ∧
    (∀ b, select_sidebar_item db a = some b → b.selected_index = 0) := by
  refine ⟨?_, ?_, ?_⟩
  · intro h
    simp only [reload_posts_for_active_node] at h ⊢
    rw [clampIndex_posts] at h ⊢
    exact clampIndex_lt _ h
  · intro h
    simp only [reload_posts_for_active_node] at h ⊢
    rw [clampIndex_posts] at h
    rw [clampIndex_of_empty _ h]
  · intro b hb
    simp only [select_sidebar_item, Option.map_eq_some'] at hb
    obtain ⟨n, _, hfb⟩ := hb
    rw [← hfb]

/-- Witness for the amended C3: a non-empty materialization bounds the
index, and sidebar selection resets it to 0. -/
theorem claim_C3_witness :
    ((reload_posts_for_active_node dbOnePost aStaleIdx).posts ≠ [] →
        (reload_posts_for_active_node dbOnePost aStaleIdx).selected_index <
          (reload_posts_for_active_node dbOnePost aStaleIdx).posts.length) ∧
    ((reload_posts_for_active_node dbOnePost aStaleIdx).posts = [] →
        (reload_posts_for_active_node dbOnePost aStaleIdx).selected_index =
          aStaleIdx.selected_index) ∧
    (∀ b, select_sidebar_item dbOnePost aStaleIdx = some b → b.selected_index = 0) :=
  claim_C3_amended dbOnePost aStaleIdx

lemma clampIndex_selected_index (a : App) :
    (clampIndex a).selected_index =
      if a.posts.length ≤ a.selected_index && !a.posts.isEmpty then a.posts.length - 1
      else a.selected_index := by
  by_cases h : (a.posts.length ≤ a.selected_index && !a.posts.isEmpty) = true <;>
    simp [clampIndex, h]

lemma reload_sidebar (db : Database) (a : App) :
    (reload_posts_for_active_node db a).sidebar = a.sidebar := by
  simp only [reload_posts_for_active_node]
  rw [clampIndex_sidebar]

lemma drain_posts (db : Database) (now : Nat) (X : NavNode) (a : App) :
    (drain_completion db now X a).posts =
      if a.active_node = X then (reload_posts_for_active_node db a).posts else a.posts := by
  simp only [drain_completion, refresh_sidebar]
  split
  · rw [reload_posts_posts, reload_posts_posts]
  · rfl

lemma drain_selected_index (db : Database) (now : Nat) (X : NavNode) (a : App) :
    (drain_completion db now X a).selected_index =
      if a.active_node = X then (reload_posts_for_active_node db a).selected_index
      else a.selected_index := by
  simp only [drain_completion, refresh_sidebar]
  split
  · simp only [reload_posts_for_active_node]
    rw [clampIndex_selected_index, clampIndex_selected_index]
  · rfl

lemma drain_sidebar (db : Database) (now : Nat) (X : NavNode) (a : App) :
    (drain_completion db now X a).sidebar =
      ((a.sidebar.mark_fetched X now).load_categories db).update_counts db := by
  simp only [drain_completion, refresh_sidebar]
  split
  · rw [reload_sidebar]
  · rfl

/-- Claim C1: draining a completion notification for node X marks X
fetched and recomputes every sidebar count from the store; when the active
node is some Y different from X, the in-memory post list and the selection
index are left completely unchanged, and when the active node is still X,
the active post list is re-materialized. -/
theorem claim_C1 (db : Database) (now : Nat) (X : NavNode) (a : App) :
    (a.active_node ≠ X →
        (drain_completion db now X a).posts = a.posts ∧
        (drain_completion db now X a).selected_index = a.selected_index) ∧
    (a.active_node = X →
        (drain_completion db now X a).posts = (reload_posts_for_active_node db a).posts) ∧
    mapLookup (drain_completion db now X a).sidebar.last_fetched X = some now ∧
    (mapLookup (drain_completion db now X a).sidebar.counts
        (NavNode.SmartView SmartView.Fresh) = some (unreadCountAll db) ∧
     mapLookup (drain_completion db now X a).sidebar.counts
        (NavNode.SmartView SmartView.Starred) = some (starredCountAll db) ∧
     mapLookup (drain_completion db now X a).sidebar.counts
        (NavNode.SmartView SmartView.ReadLater) = some (readLaterCountAll db) ∧
     mapLookup (drain_completion db now X a).sidebar.counts
        (NavNode.SmartView SmartView.Archived) = some (archivedCountAll db)) ∧
    (∀ c ∈ (drain_completion db now X a).sidebar.categories,
        mapLookup (drain_completion db now X a).sidebar.counts (NavNode.Category c)
          = some (categoryCountAll db c)) := by
  refine ⟨?_, ?_, ?_, ?_, ?_⟩
  · intro h
    rw [drain_posts, drain_selected_index, if_neg h, if_neg h]
    exact ⟨rfl, rfl⟩
  · intro h
    rw [drain_posts, if_pos h]
  · rw [drain_sidebar, update_counts_last_fetched, load_categories_last_fetched]
    exact mapLookup_insert_self _ X now
  · rw [drain_sidebar]
    exact update_counts_lookup_smart _ db
  · intro c hc
    rw [drain_sidebar] at hc ⊢
    rw [update_counts_categories] at hc
    exact update_counts_lookup_cat _ db c hc

/-- Witness for C1: a Fresh-node completion drained while Starred is
active leaves the list and index untouched. -/
theorem claim_C1_witness :
    (aStarred0.active_node ≠ NavNode.SmartView SmartView.Fresh) ∧
    ((drain_completion dbOnePost 7 (NavNode.SmartView SmartView.Fresh) aStarred0).posts
        = aStarred0.posts ∧
     (drain_completion dbOnePost 7 (NavNode.SmartView SmartView.Fresh) aStarred0).selected_index
        = aStarred0.selected_index) :=
  ⟨by decide, (claim_C1 dbOnePost 7 (NavNode.SmartView SmartView.Fresh) aStarred0).1 (by decide)⟩

lemma selCat_mem {db : Database} {K c : Nat} {p : Post} (hp : p ∈ selCat db K c) :
    postCategory db p = some c ∧ p.is_read = false := by
  have h1 : p ∈ sortByDateDesc (unreadInCat db c) := List.take_subset K _ hp
  have h2 : p ∈ unreadInCat db c := sortByDateDesc_mem.mp h1
  have h4 := (List.mem_filter.mp h2).2
  simpa only [inCatUnread, Bool.and_eq_true, decide_eq_true_eq, Bool.not_eq_true'] using h4

lemma selCat_length (db : Database) (K c : Nat) :
    (selCat db K c).length = min K (unreadCount db c) := by
  simp [selCat, unreadCount, List.length_take, sortByDateDesc_length]

lemma countP_selCat_self (db : Database) (K c : Nat) :
    (selCat db K c).countP (fun p => decide (postCategory db p = some c))
      = (selCat db K c).length :=
  List.countP_eq_length.mpr (fun p hp => by
    simpa only [decide_eq_true_eq] using (selCat_mem hp).1)

lemma countP_selCat_other (db : Database) (K : Nat) {c c2 : Nat} (h : c2 ≠ c) :
    (selCat db K c2).countP (fun p => decide (postCategory db p = some c)) = 0 :=
  List.countP_eq_zero.mpr (fun p hp hpred => by
    have h1 := (selCat_mem hp).1
    simp only [decide_eq_true_eq] at hpred
    rw [h1] at hpred
    exact h (Option.some.inj hpred))

lemma countP_flatMap_sel (db : Database) (K c : Nat) :
    ∀ l : List Nat, l.Nodup → c ∈ l →
      (l.flatMap (selCat db K)).countP (fun p => decide (postCategory db p = some c))
        = (selCat db K c).length := by
  intro l
  induction l with
  | nil =>
    intro _ hc
    exact absurd hc (List.not_mem_nil c)
  | cons x xs ih =>
    intro hnd hc
    rw [List.flatMap_cons, List.countP_append]
    have hx_nin : x ∉ xs := (List.nodup_cons.mp hnd).1
    have hnd2 := (List.nodup_cons.mp hnd).2
    by_cases hmem : c ∈ xs
    · have hxc : x ≠ c := fun h => hx_nin (h ▸ hmem)
      rw [countP_selCat_other db K hxc, ih hnd2 hmem, Nat.zero_add]
    · have hxc : x = c := by
        rcases List.mem_cons.mp hc with h | h
        · exact h.symm
        · exact absurd h hmem
      subst hxc
      have hz : (xs.flatMap (selCat db K)).countP
          (fun p => decide (postCategory db p = some x)) = 0 := by
        apply List.countP_eq_zero.mpr
        intro p hp hpred
        obtain ⟨c2, hc2, hpc2⟩ := List.mem_flatMap.mp hp
        have h1 := (selCat_mem hpc2).1
        simp only [decide_eq_true_eq] at hpred
        rw [h1] at hpred
        exact hx_nin (Option.some.inj hpred ▸ hc2)
      rw [countP_selCat_self, hz, Nat.add_zero]

lemma length_flatMap_sel (db : Database) (K : Nat) (l : List Nat) :
    (l.flatMap (selCat db K)).length = (l.map (fun c => min K (unreadCount db c))).sum := by
  induction l with
  | nil => rfl
  | cons x xs ih =>
    rw [List.flatMap_cons, List.length_append, ih, List.map_cons, List.sum_cons, selCat_length]

/-- Claim C2: materializing the Fresh smart view with the show-read toggle
off calls the fair digest with K = 15; for every known category the result
contains exactly min(15, number of that category's unread posts) posts of
that category, every post in it is unread, its total length is the sum of
those per-category minima, and it is globally sorted newest first. -/
theorem claim_C2 (db : Database) (c : Nat) (a : App)
    (hc : c ∈ get_categories db)
    (hnode : a.active_node = NavNode.SmartView SmartView.Fresh)
    (hsr : a.show_read = false) :
    (reload_posts_for_active_node db a).posts = get_fresh_feed db 15 ∧
    countInCat db c (get_fresh_feed db 15) = min 15 (unreadCount db c) ∧
    (get_fresh_feed db 15).length
      = ((get_categories db).map (fun c2 => min 15 (unreadCount db c2))).sum ∧
    (∀ p ∈ get_fresh_feed db 15, p.is_read = false) ∧
    List.Sorted dateGE (get_fresh_feed db 15) := by
  refine ⟨?_, ?_, ?_, ?_, ?_⟩
  · simp [reload_posts_posts, hnode, hsr]
  · unfold countInCat get_fresh_feed
    rw [(sortByDateDesc_perm _).countP_eq]
    exact (countP_flatMap_sel db 15 c _ (get_categories_nodup db) hc).trans
      (selCat_length db 15 c)
  · unfold get_fresh_feed
    rw [(sortByDateDesc_perm _).length_eq, length_flatMap_sel]
  · intro p hp
    unfold get_fresh_feed at hp
    rw [sortByDateDesc_mem] at hp
    obtain ⟨c2, _, hpc2⟩ := List.mem_flatMap.mp hp
    exact (selCat_mem hpc2).2
  · exact sortByDateDesc_sorted _

/-- Witness for C2: with category 1 holding 50 unread posts and category 2
holding 2, the Fresh digest has exactly 15 posts of category 1, 2 of
category 2, and 17 in total. -/
theorem claim_C2_witness :
    (1 ∈ get_categories dbFair ∧ 2 ∈ get_categories dbFair) ∧
    countInCat dbFair 1 (get_fresh_feed dbFair 15) = 15 ∧
    countInCat dbFair 2 (get_fresh_feed dbFair 15) = 2 ∧
    (get_fresh_feed dbFair 15).length = 17 := by
  have h1 := claim_C2 dbFair 1 appBase (by decide) rfl rfl
  have h2 := claim_C2 dbFair 2 appBase (by decide) rfl rfl
  refine ⟨⟨by decide, by decide⟩, ?_, ?_, ?_⟩
  · rw [h1.2.1]
    decide
  · rw [h2.2.1]
    decide
  · rw [h1.2.2.1]
    decide

/-- Claim C8: in the Fresh-digest ordering, every post with no publish date
sorts as oldest: once a dateless post appears, every later post is also
dateless, i.e. dateless posts come after every dated post. -/
theorem claim_C8 (db : Database) (K : Nat) :
    List.Pairwise (fun p q => p.pub_date = none → q.pub_date = none)
      (get_fresh_feed db K) := by
  have hs : List.Sorted dateGE (get_fresh_feed db K) := sortByDateDesc_sorted _
  refine hs.imp ?_
  intro p q hpq hp
  have hpq2 : dateKey q.pub_date ≤ dateKey p.pub_date := hpq
  rw [hp] at hpq2
  cases hq : q.pub_date with
  | none => rfl
  | some t =>
    rw [hq] at hpq2
    simp [dateKey] at hpq2

/-- Counterexample to claim C4 as stated: a failed store write during
`toggle_bookmark` is not a silent no-op — the store is untouched, yet the
in-memory post list still changes (the flag is flipped in memory). -/
theorem claim_C4_counterexample :
    (toggle_bookmark false dbUnflagged aUnflagged).2 = dbUnflagged ∧
    (toggle_bookmark false dbUnflagged aUnflagged).1.posts ≠ aUnflagged.posts := by decide

/-- Claim C4 (amended): post/feed/category deletion on a failed store write
is a silent no-op (only the input mode returns to Normal); the four flag
toggles, however, discard the store result: the store is left unchanged on
failure but the in-memory list and selection evolve exactly as on success. -/
theorem claim_C4_amended (db : Database) (a : App) (pid fid : Int) (c : Nat) :
    (handle_confirm_input false db a ConfirmKey.yes (ConfirmAction.DeletePost pid)
        = ({ a with input_mode := InputMode.Normal }, db) ∧
     handle_confirm_input false db a ConfirmKey.yes (ConfirmAction.DeleteFeed fid)
        = ({ a with input_mode := InputMode.Normal }, db) ∧
     handle_confirm_input false db a ConfirmKey.yes (ConfirmAction.DeleteCategory c)
        = ({ a with input_mode := InputMode.Normal }, db)) ∧
    ((toggle_bookmark false db a).2 = db ∧
     (toggle_archived false db a).2 = db ∧
     (toggle_read_later false db a).2 = db ∧
     (toggle_read false db a).2 = db) ∧
    ((toggle_bookmark false db a).1.posts = (toggle_bookmark true db a).1.posts ∧
     (toggle_bookmark false db a).1.selected_index
        = (toggle_bookmark true db a).1.selected_index) ∧
    ((toggle_archived false db a).1.posts = (toggle_archived true db a).1.posts ∧
     (toggle_archived false db a).1.selected_index
        = (toggle_archived true db a).1.selected_index) ∧
    ((toggle_read_later false db a).1.posts = (toggle_read_later true db a).1.posts ∧
     (toggle_read_later false db a).1.selected_index
        = (toggle_read_later true db a).1.selected_index) ∧
    ((toggle_read false db a).1.posts = (toggle_read true db a).1.posts ∧
     (toggle_read false db a).1.selected_index
        = (toggle_read true db a).1.selected_index) := by
  refine ⟨⟨rfl, rfl, rfl⟩, ?_, ?_, ?_, ?_, ?_⟩ <;>
    cases h : a.posts[a.selected_index]? <;>
      simp [toggle_bookmark, toggle_archived, toggle_read_later, toggle_read,
        refresh_sidebar, List.get?_eq_getElem?, h]

lemma set_eraseIdx_self {α : Type} (l : List α) (i : Nat) (x : α) :
    (l.set i x).eraseIdx i = l.eraseIdx i := by
  induction l generalizing i with
  | nil => rfl
  | cons b bs ih =>
    cases i with
    | zero => rfl
    | succ n => simp [List.set, List.eraseIdx, ih]

lemma clampIndex_invariant (b : App) :
    (clampIndex b).posts = [] ∨ (clampIndex b).selected_index < (clampIndex b).posts.length := by
  by_cases h : b.posts = []
  · left
    rw [clampIndex_posts]
    exact h
  · right
    rw [clampIndex_posts]
    exact clampIndex_lt b h

/-- Claim C5: clearing a flag via its toggle removes the post from the
in-memory list exactly when the cleared flag defines the currently active
smart view (un-starring in Starred, un-archiving in Archived, clearing
read-later in Read-Later); in every other case the list is only updated in
place at the selected position (membership and order untouched) and the
selection index is unchanged; after any toggle the selection index is in
bounds or the list is empty. -/
theorem claim_C5 (db : Database) (a : App) (post : Post)
    (hp : a.posts[a.selected_index]? = some post) :
    ((post.is_bookmarked = true ∧ a.active_node = NavNode.SmartView SmartView.Starred →
        (toggle_bookmark true db a).1.posts = a.posts.eraseIdx a.selected_index) ∧
     (¬(post.is_bookmarked = true ∧ a.active_node = NavNode.SmartView SmartView.Starred) →
        (toggle_bookmark true db a).1.posts
            = a.posts.set a.selected_index { post with is_bookmarked := !post.is_bookmarked } ∧
        (toggle_bookmark true db a).1.selected_index = a.selected_index) ∧
     ((toggle_bookmark true db a).1.posts = [] ∨
        (toggle_bookmark true db a).1.selected_index
          < (toggle_bookmark true db a).1.posts.length)) ∧
    ((post.is_archived = true ∧ a.active_node = NavNode.SmartView SmartView.Archived →
        (toggle_archived true db a).1.posts = a.posts.eraseIdx a.selected_index) ∧
     (¬(post.is_archived = true ∧ a.active_node = NavNode.SmartView SmartView.Archived) →
        (toggle_archived true db a).1.posts
            = a.posts.set a.selected_index { post with is_archived := !post.is_archived } ∧
        (toggle_archived true db a).1.selected_index = a.selected_index) ∧
     ((toggle_archived true db a).1.posts = [] ∨
        (toggle_archived true db a).1.selected_index
          < (toggle_archived true db a).1.posts.length)) ∧
    ((post.is_read_later = true ∧ a.active_node = NavNode.SmartView SmartView.ReadLater →
        (toggle_read_later true db a).1.posts = a.posts.eraseIdx a.selected_index) ∧
     (¬(post.is_read_later = true ∧ a.active_node = NavNode.SmartView SmartView.ReadLater) →
        (toggle_read_later true db a).1.posts
            = a.posts.set a.selected_index { post with is_read_later := !post.is_read_later } ∧
        (toggle_read_later true db a).1.selected_index = a.selected_index) ∧
     ((toggle_read_later true db a).1.posts = [] ∨
        (toggle_read_later true db a).1.selected_index
          < (toggle_read_later true db a).1.posts.length)) := by
  have hlt : a.selected_index < a.posts.length := by
    by_contra hge
    rw [List.getElem?_eq_none (Nat.le_of_not_lt hge)] at hp
    exact Option.noConfusion hp
  refine ⟨⟨?_, ?_, ?_⟩, ⟨?_, ?_, ?_⟩, ⟨?_, ?_, ?_⟩⟩
  · rintro ⟨hflag, hnode⟩
    simp [toggle_bookmark, hp, refresh_sidebar, hflag, hnode, clampIndex_posts,
      set_eraseIdx_self]
  · intro hnot
    have hC : (post.is_bookmarked
        && decide (a.active_node = NavNode.SmartView SmartView.Starred)) = false := by
      by_cases hf : post.is_bookmarked = true
      · have hn : a.active_node ≠ NavNode.SmartView SmartView.Starred :=
          fun hn => hnot ⟨hf, hn⟩
        simp [hn]
      · have hf2 : post.is_bookmarked = false := by simpa using hf
        simp [hf2]
    simp [toggle_bookmark, hp, refresh_sidebar, hC]
  · by_cases hcond : post.is_bookmarked = true
        ∧ a.active_node = NavNode.SmartView SmartView.Starred
    · obtain ⟨hflag, hnode⟩ := hcond
      simp only [toggle_bookmark, List.get?_eq_getElem?, hp, refresh_sidebar]
      simp [hflag, hnode]
      exact clampIndex_invariant _
    · have hC : (post.is_bookmarked
          && decide (a.active_node = NavNode.SmartView SmartView.Starred)) = false := by
        by_cases hf : post.is_bookmarked = true
        · have hn : a.active_node ≠ NavNode.SmartView SmartView.Starred :=
            fun hn => hcond ⟨hf, hn⟩
          simp [hn]
        · have hf2 : post.is_bookmarked = false := by simpa using hf
          simp [hf2]
      refine Or.inr ?_
      simp [toggle_bookmark, hp, refresh_sidebar, hC, List.length_set]
      exact hlt
  · rintro ⟨hflag, hnode⟩
    simp [toggle_archived, hp, refresh_sidebar, hflag, hnode, clampIndex_posts,
      set_eraseIdx_self]
  · intro hnot
    have hC : (post.is_archived
        && decide (a.active_node = NavNode.SmartView SmartView.Archived)) = false := by
      by_cases hf : post.is_archived = true
      · have hn : a.active_node ≠ NavNode.SmartView SmartView.Archived :=
          fun hn => hnot ⟨hf, hn⟩
        simp [hn]
      · have hf2 : post.is_archived = false := by simpa using hf
        simp [hf2]
    simp [toggle_archived, hp, refresh_sidebar, hC]
  · by_cases hcond : post.is_archived = true
        ∧ a.active_node = NavNode.SmartView SmartView.Archived
    · obtain ⟨hflag, hnode⟩ := hcond
      simp only [toggle_archived, List.get?_eq_getElem?, hp, refresh_sidebar]
      simp [hflag, hnode]
      exact clampIndex_invariant _
    · have hC : (post.is_archived
          && decide (a.active_node = NavNode.SmartView SmartView.Archived)) = false := by
        by_cases hf : post.is_archived = true
        · have hn : a.active_node ≠ NavNode.SmartView SmartView.Archived :=
            fun hn => hcond ⟨hf, hn⟩
          simp [hn]
        · have hf2 : post.is_archived = false := by simpa using hf
          simp [hf2]
      refine Or.inr ?_
      simp [toggle_archived, hp, refresh_sidebar, hC, List.length_set]
      exact hlt
  · rintro ⟨hflag, hnode⟩
    simp [toggle_read_later, hp, refresh_sidebar, hflag, hnode, clampIndex_posts,
      set_eraseIdx_self]
  · intro hnot
    have hC : (post.is_read_later
        && decide (a.active_node = NavNode.SmartView SmartView.ReadLater)) = false := by
      by_cases hf : post.is_read_later = true
      · have hn : a.active_node ≠ NavNode.SmartView SmartView.ReadLater :=
          fun hn => hnot ⟨hf, hn⟩
        simp [hn]
      · have hf2 : post.is_read_later = false := by simpa using hf
        simp [hf2]
    simp [toggle_read_later, hp, refresh_sidebar, hC]
  · by_cases hcond : post.is_read_later = true
        ∧ a.active_node = NavNode.SmartView SmartView.ReadLater
    · obtain ⟨hflag, hnode⟩ := hcond
      simp only [toggle_read_later, List.get?_eq_getElem?, hp, refresh_sidebar]
      simp [hflag, hnode]
      exact clampIndex_invariant _
    · have hC : (post.is_read_later
          && decide (a.active_node = NavNode.SmartView SmartView.ReadLater)) = false := by
        by_cases hf : post.is_read_later = true
        · have hn : a.active_node ≠ NavNode.SmartView SmartView.ReadLater :=
            fun hn => hcond ⟨hf, hn⟩
          simp [hn]
        · have hf2 : post.is_read_later = false := by simpa using hf
          simp [hf2]
      refine Or.inr ?_
      simp [toggle_read_later, hp, refresh_sidebar, hC, List.length_set]
      exact hlt

/-- Witness for C5: with active node Starred and 3 bookmarked posts,
toggling the bookmark on the 2nd entry removes it (list length 2) with the
selection index in bounds. -/
theorem claim_C5_witness :
    aBook.posts[aBook.selected_index]? = some pBook2 ∧
    (toggle_bookmark true dbBook aBook).1.posts = aBook.posts.eraseIdx aBook.selected_index ∧
    (toggle_bookmark true dbBook aBook).1.posts.length = 2 ∧
    ((toggle_bookmark true dbBook aBook).1.posts = [] ∨
      (toggle_bookmark true dbBook aBook).1.selected_index
        < (toggle_bookmark true dbBook aBook).1.posts.length) := by
  have h := claim_C5 dbBook aBook pBook2 (by decide)
  exact ⟨by decide, h.1.1 ⟨rfl, rfl⟩, by decide, h.1.2.2⟩

lemma idxOfId_spec : ∀ (l : List Post) (i : Int) (j : Nat),
    idxOfId l i = some j → (l[j]?).map Post.id = some i := by
  intro l
  induction l with
  | nil =>
    intro i j h
    exact Option.noConfusion h
  | cons p rest ih =>
    intro i j h
    by_cases hid : p.id = i
    · simp only [idxOfId, if_pos hid] at h
      cases h
      simp [hid]
    · simp only [idxOfId, if_neg hid, Option.map_eq_some'] at h
      obtain ⟨j2, hj2, hjj⟩ := h
      subst hjj
      simpa using ih i j2 hj2

lemma idxOfId_isSome {i : Int} : ∀ {l : List Post},
    (∃ q ∈ l, q.id = i) → (idxOfId l i).isSome := by
  intro l
  induction l with
  | nil =>
    rintro ⟨q, hq, _⟩
    exact absurd hq (List.not_mem_nil q)
  | cons p rest ih =>
    rintro ⟨q, hq, hqi⟩
    by_cases hid : p.id = i
    · simp [idxOfId, hid]
    · have hqr : q ∈ rest := by
        rcases List.mem_cons.mp hq with h | h
        · exact absurd (h ▸ hqi) hid
        · exact h
      have := ih ⟨q, hqr, hqi⟩
      simp only [idxOfId, if_neg hid]
      simpa using this

lemma idxOfId_eq_none {i : Int} : ∀ {l : List Post},
    (∀ q ∈ l, q.id ≠ i) → idxOfId l i = none := by
  intro l
  induction l with
  | nil =>
    intro _
    rfl
  | cons p rest ih =>
    intro hall
    have hid : p.id ≠ i := hall p (List.mem_cons_self p rest)
    simp only [idxOfId, if_neg hid, ih (fun q hq => hall q (List.mem_cons_of_mem p hq))]
    rfl

lemma clampIndex_zero (b : App) (h : b.selected_index = 0) :
    (clampIndex b).selected_index = 0 := by
  rw [clampIndex_selected_index, h]
  cases hb : b.posts <;> simp [hb]

lemma remove_read_posts_spec (a : App) (post : Post)
    (hp : a.posts[a.selected_index]? = some post) :
    (remove_read_posts a).posts = a.posts.filter (fun p => !p.is_read) ∧
    ((∃ q ∈ a.posts.filter (fun p => !p.is_read), q.id = post.id) →
      ((remove_read_posts a).posts[(remove_read_posts a).selected_index]?).map Post.id
        = some post.id) ∧
    ((∀ q ∈ a.posts.filter (fun p => !p.is_read), q.id ≠ post.id) →
      (remove_read_posts a).selected_index = 0) := by
  have hp2 : a.posts.get? a.selected_index = some post := by
    rw [List.get?_eq_getElem?]
    exact hp
  refine ⟨?_, ?_, ?_⟩
  · simp only [remove_read_posts, hp2, Option.map_some']
    rw [clampIndex_posts]
  · intro hex
    obtain ⟨j, hj⟩ := Option.isSome_iff_exists.mp (idxOfId_isSome hex)
    have hspec := idxOfId_spec _ _ _ hj
    have hjlt : j < (a.posts.filter (fun p => !p.is_read)).length := by
      by_contra hge
      rw [List.getElem?_eq_none (Nat.le_of_not_lt hge)] at hspec
      exact Option.noConfusion hspec
    simp only [remove_read_posts, hp2, Option.map_some', hj, Option.getD_some]
    rw [clampIndex_of_lt _ (by simpa using hjlt)]
    simpa using hspec
  · intro hall
    simp only [remove_read_posts, hp2, Option.map_some', idxOfId_eq_none hall,
      Option.getD_none]
    exact clampIndex_zero _ rfl

/-- Claim C7: opening an article marks the selected post read in the store
and in the in-memory copy without removing it from the list (and leaves
the selection index alone); in Fresh unread-only mode the read posts are
removed only when the article view is closed, and on that removal the
selection follows the id of the previously selected post when a post with
that id survives, otherwise it falls back to index 0; in any other mode
closing only returns focus to the posts pane. -/
theorem claim_C7 (db : Database) (a : App) (post : Post)
    (hp : a.posts[a.selected_index]? = some post) :
    ((open_article db a).1.posts
        = a.posts.set a.selected_index { post with is_read := true } ∧
     (open_article db a).1.selected_index = a.selected_index ∧
     (∀ q ∈ (open_article db a).2.posts, q.id = post.id → q.is_read = true)) ∧
    (a.show_read = false → a.active_node = NavNode.SmartView SmartView.Fresh →
      ((close_article a).posts = a.posts.filter (fun p => !p.is_read) ∧
       ((∃ q ∈ a.posts.filter (fun p => !p.is_read), q.id = post.id) →
         ((close_article a).posts[(close_article a).selected_index]?).map Post.id
           = some post.id) ∧
       ((∀ q ∈ a.posts.filter (fun p => !p.is_read), q.id ≠ post.id) →
         (close_article a).selected_index = 0))) ∧
    (¬(a.show_read = false ∧ a.active_node = NavNode.SmartView SmartView.Fresh) →
      close_article a = { a with focus := FocusPane.Posts }) := by
  have hp2 : a.posts.get? a.selected_index = some post := by
    rw [List.get?_eq_getElem?]
    exact hp
  refine ⟨⟨?_, ?_, ?_⟩, ?_, ?_⟩
  · simp [open_article, hp, refresh_sidebar, apply_ite App.posts]
  · simp [open_article, hp, refresh_sidebar, apply_ite App.selected_index]
  · intro q hq hid
    simp only [open_article, hp2] at hq
    simp only [Database.mark_as_read, List.mem_map] at hq
    obtain ⟨p0, _, hf⟩ := hq
    by_cases hpid : p0.id = post.id
    · rw [← hf, if_pos hpid]
    · rw [← hf, if_neg hpid] at hid ⊢
      exact absurd hid hpid
  · intro hsr hnode
    have hC : close_article a = remove_read_posts { a with focus := FocusPane.Posts } := by
      simp [close_article, hsr, hnode]
    rw [hC]
    exact remove_read_posts_spec { a with focus := FocusPane.Posts } post hp
  · intro hnot
    have hC : (!a.show_read
        && decide (a.active_node = NavNode.SmartView SmartView.Fresh)) = false := by
      by_cases hs : a.show_read = false
      · have hn : a.active_node ≠ NavNode.SmartView SmartView.Fresh :=
          fun hn => hnot ⟨hs, hn⟩
        simp [hn]
      · have hs2 : a.show_read = true := by simpa using hs
        simp [hs2]
    simp [close_article, hC]

/-- Witness for C7: opening then closing in Fresh unread-only mode with a
read and an unread post; the selection follows the surviving post's id. -/
theorem claim_C7_witness :
    aReadMix.posts[aReadMix.selected_index]? = some pUnread2 ∧
    ((open_article dbReadMix aReadMix).1.posts
        = aReadMix.posts.set aReadMix.selected_index { pUnread2 with is_read := true } ∧
     (close_article aReadMix).posts = aReadMix.posts.filter (fun p => !p.is_read) ∧
     ((close_article aReadMix).posts[(close_article aReadMix).selected_index]?).map Post.id
        = some pUnread2.id) := by
  have h := claim_C7 dbReadMix aReadMix pUnread2 (by decide)
  exact ⟨by decide, h.1.1, (h.2.1 rfl rfl).1, (h.2.1 rfl rfl).2.1 (by decide)⟩

/-- Claim C9: deleting a category other than "General" reassigns all of
that category's feeds to "General" (same feed ids) and removes the name
from the category list; a delete request with the cursor on "General" only
sets a user-visible notice and never enters the confirming state, while on
any other category it enters the confirming state. -/
theorem claim_C9 (db : Database) (c : Nat) (a : App) (c0 : Nat)
    (hc : c ≠ generalCat)
    (hsect : a.sidebar.sect = SidebarSection.Categories)
    (hget : a.sidebar.categories.get? a.sidebar.category_index = some c0) :
    (∀ f ∈ (db.delete_category c).feeds, f.category ≠ c) ∧
    (∀ f ∈ db.feeds, f.category = c →
        ∃ f2 ∈ (db.delete_category c).feeds, f2.id = f.id ∧ f2.category = generalCat) ∧
    c ∉ get_categories (db.delete_category c) ∧
    (c0 = generalCat →
        handle_sidebar_delete a = { a with message := some msgCannotDeleteGeneral }) ∧
    (c0 ≠ generalCat →
        handle_sidebar_delete a
          = { a with input_mode := InputMode.Confirming (ConfirmAction.DeleteCategory c0) }) := by
  have hgc : generalCat ≠ c := fun h => hc h.symm
  have hget2 : a.sidebar.categories[a.sidebar.category_index]? = some c0 := by
    rw [← List.get?_eq_getElem?]
    exact hget
  refine ⟨?_, ?_, ?_, ?_, ?_⟩
  · intro f hf
    simp only [Database.delete_category, List.mem_map] at hf
    obtain ⟨f0, _, hf0⟩ := hf
    by_cases hcat : f0.category = c
    · rw [← hf0, if_pos hcat]
      exact hgc
    · rw [← hf0, if_neg hcat]
      exact hcat
  · intro f hf hfc
    refine ⟨{ f with category := generalCat }, ?_, rfl, rfl⟩
    simp only [Database.delete_category, List.mem_map]
    exact ⟨f, hf, by rw [if_pos hfc]⟩
  · intro hmem
    simp only [get_categories, List.mem_insertionSort, List.mem_dedup,
      List.mem_append, List.mem_filter, List.mem_map, Database.delete_category,
      decide_eq_true_eq] at hmem
    rcases hmem with ⟨_, hne⟩ | ⟨f0, ⟨f1, _, hgf⟩, hf0c⟩
    · exact hne rfl
    · by_cases hcat : f1.category = c
      · rw [if_pos hcat] at hgf
        rw [← hgf] at hf0c
        exact hgc hf0c
      · rw [if_neg hcat] at hgf
        rw [← hgf] at hf0c
        exact hcat hf0c
  · intro h0
    subst h0
    simp [handle_sidebar_delete, hsect, hget2]
  · intro h0
    simp [handle_sidebar_delete, hsect, hget2, h0]

/-- Witness for C9: deleting category 1 ("Tech", 4 feeds) reassigns all
four feeds to "General" and drops 1 from the category list; the delete key
on "General" only sets the rejection notice, on "Tech" it enters the
confirming state. -/
theorem claim_C9_witness :
    ((1 : Nat) ≠ generalCat ∧
      aOnGeneral.sidebar.categories.get? aOnGeneral.sidebar.category_index = some 0) ∧
    (∀ f ∈ dbTech.feeds, f.category = 1 →
        ∃ f2 ∈ (dbTech.delete_category 1).feeds, f2.id = f.id ∧ f2.category = generalCat) ∧
    (1 : Nat) ∉ get_categories (dbTech.delete_category 1) ∧
    handle_sidebar_delete aOnGeneral
      = { aOnGeneral with message := some msgCannotDeleteGeneral } ∧
    handle_sidebar_delete aOnTech
      = { aOnTech with input_mode := InputMode.Confirming (ConfirmAction.DeleteCategory 1) } := by
  have h1 := claim_C9 dbTech 1 aOnGeneral 0 (by decide) rfl (by decide)
  have h2 := claim_C9 dbTech 1 aOnTech 1 (by decide) rfl (by decide)
  exact ⟨⟨by decide, by decide⟩, h1.2.1, h1.2.2.1, h1.2.2.2.1 rfl, h2.2.2.2.2 (by decide)⟩
